import Mathlib

/-!
Shallow embedding of `getconf/base.py` (the `ConfigGetter` layered
configuration resolver) and verification of its specification.

Python strings are modelled as Lean `String`s manipulated through their
character lists; Python's case conversions are modelled on ASCII.
-/

/-! ### Generic lexicographic orders on lists

Python compares strings and tuples lexicographically; we set up a generic
lexicographic order (strict and non-strict) over an element order given as a
`Bool`-valued function, with the totality and transitivity lemmas needed for
sorting. -/

/-- Strict lexicographic order on lists induced by a strict element order. -/
def lexLt {α : Type} [DecidableEq α] (lt : α → α → Bool) : List α → List α → Bool
  | [], [] => false
  | [], _ :: _ => true
  | _ :: _, [] => false
  | a :: as, b :: bs => if a = b then lexLt lt as bs else lt a b

/-- Non-strict lexicographic order on lists induced by a strict element order. -/
def lexLe {α : Type} [DecidableEq α] (lt : α → α → Bool) : List α → List α → Bool
  | [], _ => true
  | _ :: _, [] => false
  | a :: as, b :: bs => if a = b then lexLe lt as bs else lt a b

/-! ### Code-point order on characters and strings (Python `<` on `str`) -/

/-- Strict code-point order on characters, as a `Bool` function. -/
def charLt (a b : Char) : Bool := decide (a < b)

/-- Python strict string comparison (lexicographic on code points). -/
def strLt (a b : String) : Bool := lexLt charLt a.toList b.toList

/-- Python non-strict string comparison (lexicographic on code points). -/
def strLe (a b : String) : Bool := lexLe charLt a.toList b.toList

/-- The sorting relation used to model Python `sorted` on strings. -/
def strLeR (a b : String) : Prop := strLe a b = true

instance : DecidableRel strLeR := fun a b => inferInstanceAs (Decidable (strLe a b = true))

/-! ### Python string primitives (ASCII model)

The source manipulates Python `str` values through `upper`, `split`,
`strip` and `lower`; these are standard-library functions, modelled here
over character lists (case conversion restricted to ASCII). -/

/-- Python `str.upper()` (ASCII). -/
def pyUpper (s : String) : String := String.mk (s.toList.map Char.toUpper)

/-- Python `str.lower()` (ASCII). -/
def pyLower (s : String) : String := String.mk (s.toList.map Char.toLower)

/-- Strip leading and trailing whitespace from a character list. -/
def trimWs (cs : List Char) : List Char :=
  ((cs.dropWhile Char.isWhitespace).reverse.dropWhile Char.isWhitespace).reverse

/-- Python `str.strip()` with no argument (whitespace). -/
def pyStrip (s : String) : String := String.mk (trimWs s.toList)

/-- If `pre` is a prefix of `cs`, return the remainder. -/
def dropPrefixCh : List Char → List Char → Option (List Char)
  | [], rest => some rest
  | _ :: _, [] => Option.none
  | p :: ps, c :: cs => if p = c then dropPrefixCh ps cs else Option.none

/-- Splitting engine for Python `str.split(sep)` with a non-empty separator:
scan left to right, each (non-overlapping) occurrence of the separator ends
the current piece.  `fuel` bounds the recursion; `fuel = cs.length` is always
enough because every step consumes at least one character. -/
def splitCharsFuel (sep : List Char) : Nat → List Char → List (List Char)
  | _, [] => [[]]
  | 0, cs => [cs]
  | fuel + 1, c :: rest =>
    match dropPrefixCh sep (c :: rest) with
    | some tail => [] :: splitCharsFuel sep fuel tail
    | Option.none =>
      match splitCharsFuel sep fuel rest with
      | [] => [[c]]
      | g :: gs => (c :: g) :: gs

/-- Python `value.split(sep)` for a non-empty separator string. -/
def pySplit (s : String) (sep : String) : List String :=
  (splitCharsFuel sep.toList s.toList.length s.toList).map String.mk

/-! ### Python numeric text parsing

`int(text)` and `float(text)` acceptance (standard library): optional
surrounding whitespace, optional sign, ASCII digits with single underscores
between digits; floats additionally allow a fraction, an exponent, and
`inf`/`infinity`/`nan`.  Only acceptance and the integer value are modelled;
float values themselves are not (floating point). -/

/-- No two adjacent underscores in a character list. -/
def noDoubleUnderscore : List Char → Bool
  | [] => true
  | [_] => true
  | a :: b :: rest => !(a == '_' && b == '_') && noDoubleUnderscore (b :: rest)

/-- A digit group as Python numeric literals accept it: nonempty, only ASCII
digits and underscores, starting and ending with a digit, and no two adjacent
underscores (hence every underscore sits between two digits). -/
def digitsOk (cs : List Char) : Bool :=
  !cs.isEmpty &&
  cs.all (fun c => c.isDigit || c == '_') &&
  (match cs.head? with
   | some c => c.isDigit
   | Option.none => false) &&
  (match cs.getLast? with
   | some c => c.isDigit
   | Option.none => false) &&
  noDoubleUnderscore cs

/-- Decimal value of a digit group (underscores ignored). -/
def digitsVal (cs : List Char) : Nat :=
  (cs.filter (fun c => c != '_')).foldl (fun n c => n * 10 + (c.toNat - 48)) 0

/-- Python `int(text)`: `Option.none` when the text is malformed. -/
def pyIntStr (s : String) : Option Int :=
  match trimWs s.toList with
  | '+' :: rest => if digitsOk rest then some (digitsVal rest : Int) else Option.none
  | '-' :: rest => if digitsOk rest then some (-(digitsVal rest : Int)) else Option.none
  | rest => if digitsOk rest then some (digitsVal rest : Int) else Option.none

/-- Split a character list at the first character satisfying `p`; the second
component is `none` when no character matches. -/
def splitAtFirst (p : Char → Bool) : List Char → List Char × Option (List Char)
  | [] => ([], Option.none)
  | c :: rest =>
    if p c then ([], some rest)
    else
      let (l, r) := splitAtFirst p rest
      (c :: l, r)

/-- Mantissa of a Python float literal: digits, optionally with a decimal
point, at least one digit overall. -/
def mantissaOk (cs : List Char) : Bool :=
  match splitAtFirst (fun c => c == '.') cs with
  | (ip, Option.none) => digitsOk ip
  | (ip, some fp) =>
    (ip.isEmpty || digitsOk ip) && (fp.isEmpty || digitsOk fp) && !(ip.isEmpty && fp.isEmpty)

/-- Exponent part of a Python float literal (after the `e`). -/
def expPartOk (cs : List Char) : Bool :=
  match cs with
  | '+' :: rest => digitsOk rest
  | '-' :: rest => digitsOk rest
  | rest => digitsOk rest

/-- Python `float(text)` acceptance. -/
def pyFloatOk (s : String) : Bool :=
  let cs := trimWs s.toList
  let body := match cs with
    | '+' :: rest => rest
    | '-' :: rest => rest
    | rest => rest
  let low := body.map Char.toLower
  if low == "inf".toList || low == "infinity".toList || low == "nan".toList then true
  else
    match splitAtFirst (fun c => c == 'e' || c == 'E') body with
    | (mant, Option.none) => mantissaOk mant
    | (mant, some ex) => mantissaOk mant && expPartOk ex

/-! ### Python values flowing through the resolver

Environment variables and parsed files yield text; the defaults table and the
caller-supplied defaults may also hold sequences of text (list or tuple),
booleans, integers, or `None`, matching the accessor contracts in the spec.
Nested containers and float objects are not modelled (no claim touches
them). -/

inductive Value where
  | str (s : String)
  | vlist (xs : List String)
  | vtup (xs : List String)
  | vbool (b : Bool)
  | vint (n : Int)
  | none
  deriving DecidableEq

/-- Python `str(value)` (`compat.text_type`), for the values above; list and
tuple reprs render items single-quoted and unescaped, enough for the values
concerned here. -/
def pyStr : Value → String
  | .str s => s
  | .vbool true => "True"
  | .vbool false => "False"
  | .vint n => toString n
  | .none => "None"
  | .vlist xs => "[" ++ ", ".intercalate (xs.map fun s => "'" ++ s ++ "'") ++ "]"
  | .vtup [x] => "('" ++ x ++ "',)"
  | .vtup xs => "(" ++ ", ".intercalate (xs.map fun s => "'" ++ s ++ "'") ++ ")"

/-! ### ConfigKey records and their order

`ConfigKey = namedtuple('ConfigKey', ['section', 'entry', 'envvar', 'doc'])`;
Python sorts namedtuples like tuples, lexicographically field by field. -/

structure ConfigKey where
  sectionName : String
  entry : String
  envvar : String
  doc : String
  deriving DecidableEq

/-- The fields of a `ConfigKey` in tuple order, as character lists. -/
def keyFields (k : ConfigKey) : List (List Char) :=
  [k.sectionName.toList, k.entry.toList, k.envvar.toList, k.doc.toList]

/-- Python `≤` on `ConfigKey` namedtuples: lexicographic on
(section, entry, envvar, doc). -/
def keyLe (a b : ConfigKey) : Bool := lexLe (lexLt charLt) (keyFields a) (keyFields b)

/-- The sorting relation used to model Python `sorted` on `ConfigKey`s. -/
def keyLeR (a b : ConfigKey) : Prop := keyLe a b = true

instance : DecidableRel keyLeR := fun a b => inferInstanceAs (Decidable (keyLe a b = true))

/-! ### The external world at construction and lookup time

`os.environ`, `os.path`, `glob.glob` and the `configparser` file contents are
standard-library state outside this repository. -/

/-- The process environment: a finite map from variable names to values. -/
abbrev Env := List (String × String)

/-- Lookup in `os.environ` (`os.environ[key]` / `os.environ.get(key)`). -/
def envLookup (env : Env) (key : String) : Option String :=
  (env.find? (fun p => p.1 == key)).map (fun p => p.2)

/-- Modelled from the spec: the filesystem primitives consumed at
construction (`os.path.expanduser`, `os.path.abspath`, `os.path.isdir`,
`glob.glob`) and the parsed content of each INI file, given as its ordered
(section, key, value) assignments; all of these live in the standard library,
outside the repository's source. -/
structure FileSystem where
  expanduser : String → String
  abspath : String → String
  isdir : String → Bool
  globMatches : String → List String
  fileAssigns : String → List (String × String × String)

/-- Modelled from the spec: the ConfigParser store, "the overlay of all
DiscoveredFile contents merged section-by-section, key-by-key, in discovery
order — later files overwrite earlier ones for the same (section, key)";
represented as the ordered concatenation of every parsed file's assignments,
a lookup returning the last assignment to (section, key).  `Option.none`
models `NoSectionError`/`NoOptionError` (the internal `NotFound`). -/
def storeGet (store : List (String × String × String)) (sec key : String) : Option String :=
  (store.reverse.find? (fun a => a.1 == sec && a.2.1 == key)).map (fun a => a.2.2)

/-- Lookup `self.defaults[section][key]`, `Option.none` for `KeyError`. -/
def defaultsGet (d : List (String × List (String × Value))) (sec key : String) : Option Value :=
  match (d.find? (fun p => p.1 == sec)).map (fun p => p.2) with
  | Option.none => Option.none
  | some m => (m.find? (fun p => p.1 == key)).map (fun p => p.2)

/-! ### ConfigGetter -/

/-- The state of a `ConfigGetter`: namespace, defaults table, searched
paths, discovered files, parsed store, and the seen-keys set (a duplicate-free
list). -/
structure ConfigGetter where
  ns : String
  defaults : List (String × List (String × Value))
  search_files : List String
  found_files : List String
  store : List (String × String × String)
  seen_keys : List ConfigKey
  deriving DecidableEq

/-- Source `_env_key(key, section)`: join namespace, section (when non-empty) and
key with underscores, upper-casing each component. -/
def envKeyOf (ns : String) (key : String) (sec : String) : String :=
  if sec ≠ "" then
    "_".intercalate [pyUpper ns, pyUpper sec, pyUpper key]
  else
    "_".intercalate [pyUpper ns, pyUpper key]

/-- The key-splitting step of `_get`: `if '.' in key: section, key =
key.split('.', 1) else: section = ''`. -/
def splitKey (key : String) : String × String :=
  if key.toList.contains '.' then
    match pySplit key "." with
    | s :: rest => (s, ".".intercalate rest)
    | [] => ("", key)
  else ("", key)

/-- Source `_read(env_key, section, key, default)`: environment, then parser store,
then defaults table, then the caller default.  Note that the same `section`
argument is used for both the parser and the defaults-table lookup. -/
def configRead (cg : ConfigGetter) (env : Env) (envK : String) (sec : String) (key : String)
    (default : Value) : Value :=
  match envLookup env envK with
  | some v => .str v
  | Option.none =>
    match storeGet cg.store sec key with
    | some v => .str v
    | Option.none =>
      match defaultsGet cg.defaults sec key with
      | some v => v
      | Option.none => default

/-- Python `set.add` on the seen-keys set: append the record unless already present. -/
def addSeen (seen : List ConfigKey) (k : ConfigKey) : List ConfigKey :=
  if k ∈ seen then seen else seen ++ [k]

/-- The `ConfigKey` record `_get` adds for a lookup of `key` with doc `doc`. -/
def seenRecord (cg : ConfigGetter) (key : String) (doc : String) : ConfigKey :=
  let sec := (splitKey key).1
  { sectionName := if sec = "" then "DEFAULT" else sec
    entry := (splitKey key).2
    envvar := envKeyOf cg.ns (splitKey key).2 sec
    doc := doc }

/-- Source `_get(key, default, doc)`: split the key, compute the environment
variable name and the (`DEFAULT`-substituted) config section, walk the
precedence chain, and record the seen key. -/
def configGet (cg : ConfigGetter) (env : Env) (key : String) (default : Value) (doc : String) :
    Value × ConfigGetter :=
  let sec := (splitKey key).1
  let entry := (splitKey key).2
  let envK := envKeyOf cg.ns entry sec
  let configSection := if sec = "" then "DEFAULT" else sec
  let value := configRead cg env envK configSection entry default
  (value, { cg with seen_keys := addSeen cg.seen_keys (seenRecord cg key doc) })

/-! ### Typed accessors

Each accessor first `assert`s its default's type, then calls `_get` and
coerces the resolved value.  Python errors are modelled by `Except`:
`assertErr` for a failed `assert`, `valueErr` for `ValueError` (malformed
numeric text, empty separator), `typeErr` for `TypeError` (non-iterable or
non-coercible object). -/

inductive PyErr where
  | assertErr
  | valueErr
  | typeErr
  deriving DecidableEq

deriving instance DecidableEq for Except

/-- Check `default is None or isinstance(default, unicode)`. -/
def strDefaultOk : Value → Bool
  | .none => true
  | .str _ => true
  | _ => false

/-- Check `isinstance(default, unicode) or default is None or
isinstance(default, (list, tuple))`. -/
def listDefaultOk : Value → Bool
  | .str _ => true
  | .none => true
  | .vlist _ => true
  | .vtup _ => true
  | _ => false

/-- Check `default is None or isinstance(default, bool)`. -/
def boolDefaultOk : Value → Bool
  | .none => true
  | .vbool _ => true
  | _ => false

/-- Check `default is None or isinstance(default, int)`; Python's `bool` is a
subclass of `int`, so booleans pass this check too. -/
def intDefaultOk : Value → Bool
  | .none => true
  | .vint _ => true
  | .vbool _ => true
  | _ => false

/-- Check `default is None or isinstance(default, float)`; float objects are not
representable in the model, so only `None` passes. -/
def floatDefaultOk : Value → Bool
  | .none => true
  | _ => false

/-- Source `getstr(key, default, doc)`: the raw `_get` result (the source applies no
coercion here). -/
def getstrE (cg : ConfigGetter) (env : Env) (key : String) (default : Value) (doc : String) :
    Except PyErr Value × ConfigGetter :=
  if strDefaultOk default then
    let r := configGet cg env key default doc
    (.ok r.1, r.2)
  else (.error .assertErr, cg)

/-- The list coercion of `getlist` on a text value: split on the separator,
strip each entry, keep only non-empty entries. -/
def splitPieces (s : String) (sep : String) : List String :=
  ((pySplit s sep).map pyStrip).filter (fun e => e ≠ "")

/-- Source `getlist(key, default, doc, sep)`: text values are split, `None` passes
through, and any other value is handed to `list(...)` (so a tuple comes back
as a list, and a non-iterable raises `TypeError`).  `str.split` raises
`ValueError` on an empty separator. -/
def getlistE (cg : ConfigGetter) (env : Env) (key : String) (default : Value) (doc : String)
    (sep : String) : Except PyErr Value × ConfigGetter :=
  if listDefaultOk default then
    let r := configGet cg env key default doc
    match r.1 with
    | .str s =>
      if sep = "" then (.error .valueErr, r.2)
      else (.ok (.vlist (splitPieces s sep)), r.2)
    | .none => (.ok .none, r.2)
    | .vlist xs => (.ok (.vlist xs), r.2)
    | .vtup xs => (.ok (.vlist xs), r.2)
    | _ => (.error .typeErr, r.2)
  else (.error .assertErr, cg)

/-- The truthy strings of `getbool`. -/
def truthyStrings : List String := ["on", "true", "yes", "1"]

/-- Source `getbool(key, default, doc)`: `None` passes through, otherwise
`text_type(value).lower() in ('on', 'true', 'yes', '1')`. -/
def getboolE (cg : ConfigGetter) (env : Env) (key : String) (default : Value) (doc : String) :
    Except PyErr Value × ConfigGetter :=
  if boolDefaultOk default then
    let r := configGet cg env key default doc
    match r.1 with
    | .none => (.ok .none, r.2)
    | v => (.ok (.vbool (decide (pyLower (pyStr v) ∈ truthyStrings))), r.2)
  else (.error .assertErr, cg)

/-- Python `int(value)` on a resolved value. -/
def pyIntOf : Value → Except PyErr Int
  | .str s =>
    match pyIntStr s with
    | some n => .ok n
    | Option.none => .error .valueErr
  | .vint n => .ok n
  | .vbool b => .ok (if b then 1 else 0)
  | _ => .error .typeErr

/-- Source `getint(key, default, doc)`: `None` passes through, otherwise
`int(value)`. -/
def getintE (cg : ConfigGetter) (env : Env) (key : String) (default : Value) (doc : String) :
    Except PyErr Value × ConfigGetter :=
  if intDefaultOk default then
    let r := configGet cg env key default doc
    match r.1 with
    | .none => (.ok .none, r.2)
    | v =>
      match pyIntOf v with
      | .ok n => (.ok (.vint n), r.2)
      | .error e => (.error e, r.2)
  else (.error .assertErr, cg)

/-- Python `float(value)` on a resolved value: only whether it raises is
modelled (the float result itself is floating point and not modelled). -/
def pyFloatCheck : Value → Except PyErr Unit
  | .str s => if pyFloatOk s then .ok () else .error .valueErr
  | .vint _ => .ok ()
  | .vbool _ => .ok ()
  | _ => .error .typeErr

/-- Source `getfloat(key, default, doc)`: `None` passes through (`.ok Option.none`),
otherwise `float(value)`, whose success is `.ok (some ())` — the float value
itself is not modelled (floating point), only whether the coercion raises and
the seen-keys side effect. -/
def getfloatE (cg : ConfigGetter) (env : Env) (key : String) (default : Value) (doc : String) :
    Except PyErr (Option Unit) × ConfigGetter :=
  if floatDefaultOk default then
    let r := configGet cg env key default doc
    match r.1 with
    | .none => (.ok Option.none, r.2)
    | v =>
      match pyFloatCheck v with
      | .ok _ => (.ok (some ()), r.2)
      | .error e => (.error e, r.2)
  else (.error .assertErr, cg)

/-! ### Construction -/

/-- The per-path normalisation of `__init__`: expand `~`, make absolute, and
rewrite a directory to `<path>/*` (`os.path.join(path, '*')`). -/
def normalizePath (fsys : FileSystem) (p : String) : String :=
  let q := fsys.abspath (fsys.expanduser p)
  if fsys.isdir q then q ++ "/*" else q

/-- The `search_files` loop of `__init__`: the caller's candidate paths
followed by the value of `{NAMESPACE}_CONFIG` when that variable is set
(`os.environ.get` returns `None` only when unset; only `None` is skipped),
each normalised. -/
def buildSearchFiles (fsys : FileSystem) (env : Env) (ns : String)
    (config_files : List String) : List String :=
  let extra := envLookup env (envKeyOf ns "config" "")
  let cands := config_files ++
    (match extra with
     | some p => [p]
     | Option.none => [])
  cands.map (normalizePath fsys)

/-- The `final_config_files` loop of `__init__`: each search path's glob
matches, sorted lexicographically, concatenated in search order; paths with
no matches contribute nothing. -/
def finalConfigFiles (fsys : FileSystem) (search : List String) : List String :=
  search.foldl
    (fun acc p =>
      let df := fsys.globMatches p
      if df.isEmpty then acc else acc ++ List.insertionSort strLeR df)
    []

/-- Source `ConfigGetter.__init__(namespace, config_files, defaults)`: build the
search list, discover the files, and parse them all (in order) into the
store; `parser.read` returns the files actually read. -/
def ConfigGetter.init (fsys : FileSystem) (env : Env) (ns : String)
    (config_files : List String) (defaults : List (String × List (String × Value))) :
    ConfigGetter :=
  let search := buildSearchFiles fsys env ns config_files
  let final := finalConfigFiles fsys search
  { ns := ns
    defaults := defaults
    search_files := search
    found_files := final
    store := final.flatMap fsys.fileAssigns
    seen_keys := [] }

/-- Source `list_keys()`: `sorted(self.seen_keys)`. -/
def list_keys (cg : ConfigGetter) : List ConfigKey :=
  List.insertionSort keyLeR cg.seen_keys

/-! ### Helper lemmas -/

/-- The environment-variable name `_get` computes for a lookup key. -/
def keyEnvName (cg : ConfigGetter) (key : String) : String :=
  envKeyOf cg.ns (splitKey key).2 (splitKey key).1

/-- The (`DEFAULT`-substituted) config section `_get` computes for a lookup
key. -/
def keyConfigSection (key : String) : String :=
  if (splitKey key).1 = "" then "DEFAULT" else (splitKey key).1

/-! ### Concrete instances used by counterexamples and witnesses -/

/-- An empty getter over namespace `app`. -/
def cgEmpty : ConfigGetter :=
  { ns := "app", defaults := [], search_files := [], found_files := [], store := [],
    seen_keys := [] }

/-- A getter whose defaults table has entries for the dotless key `k` under
both the bare `""` section and the `"DEFAULT"` section. -/
def cgC1 : ConfigGetter :=
  { cgEmpty with
    defaults := [("", [("k", Value.str "bare")]), ("DEFAULT", [("k", Value.str "sub")])] }

/-- A getter with both a parsed-file value and a defaults-table value for the
dotless key `k`. -/
def cgC2 : ConfigGetter :=
  { cgEmpty with
    store := [("DEFAULT", "k", "filev")]
    defaults := [("DEFAULT", [("k", Value.str "defv")])] }

/-- Filesystem for the C3 counterexample: expanding the empty path yields the
working directory `/cwd`, which is a directory; nothing globs to any file. -/
def fsC3 : FileSystem :=
  { expanduser := fun p => p
    abspath := fun p => if p = "" then "/cwd" else p
    isdir := fun p => p == "/cwd"
    globMatches := fun _ => []
    fileAssigns := fun _ => [] }

/-- Filesystem for the C3 witness: one explicitly listed file and one extra
file (named by `APP_CONFIG`), both defining `(s, k)`. -/
def fsC3w : FileSystem :=
  { expanduser := fun p => p
    abspath := fun p => p
    isdir := fun _ => false
    globMatches := fun p =>
      if p = "/listed.ini" then ["/listed.ini"]
      else if p = "/extra.ini" then ["/extra.ini"] else []
    fileAssigns := fun p =>
      if p = "/listed.ini" then [("s", "k", "low")]
      else if p = "/extra.ini" then [("s", "k", "high")] else [] }

/-- Filesystem for the C4 witness: candidate `/conf.d/*` matches two files
(glob order unsorted) which both define `(s, k)`; candidate `/none` matches
nothing. -/
def fsC4 : FileSystem :=
  { expanduser := fun p => p
    abspath := fun p => p
    isdir := fun _ => false
    globMatches := fun p => if p = "/conf.d/*" then ["/conf.d/20_b", "/conf.d/10_a"] else []
    fileAssigns := fun p =>
      if p = "/conf.d/10_a" then [("s", "k", "v10")]
      else if p = "/conf.d/20_b" then [("s", "k", "v20")] else [] }

/-- A getter whose defaults table resolves `k` to the tuple `('a',)`. -/
def cgC6 : ConfigGetter :=
  { cgEmpty with defaults := [("DEFAULT", [("k", Value.vtup ["a"])])] }

/-- A getter that has already seen two records (unsorted). -/
def cgC8 : ConfigGetter :=
  { cgEmpty with seen_keys :=
      [{ sectionName := "b", entry := "x", envvar := "APP_B_X", doc := "" },
       { sectionName := "a", entry := "y", envvar := "APP_A_Y", doc := "" }] }

/-! ### Order lemmas -/

theorem lexLt_trans {α : Type} [DecidableEq α] (lt : α → α → Bool)
    (htr : ∀ a b c, lt a b = true → lt b c = true → lt a c = true)
    (hasym : ∀ a b, lt a b = true → lt b a = true → False) :
    ∀ as bs cs, lexLt lt as bs = true → lexLt lt bs cs = true → lexLt lt as cs = true := by
  intro as
  induction as with
  | nil =>
    intro bs cs h1 h2
    cases bs with
    | nil => exact h2
    | cons b bs =>
      cases cs with
      | nil => simp [lexLt] at h2
      | cons c cs => rfl
  | cons a as ih =>
    intro bs cs h1 h2
    cases bs with
    | nil => simp [lexLt] at h1
    | cons b bs =>
      cases cs with
      | nil => simp [lexLt] at h2
      | cons c cs =>
        simp only [lexLt] at h1 h2 ⊢
        by_cases hab : a = b <;> by_cases hbc : b = c
        · rw [if_pos hab] at h1
          rw [if_pos hbc] at h2
          rw [if_pos (hab.trans hbc)]
          exact ih bs cs h1 h2
        · rw [if_neg hbc] at h2
          rw [hab, if_neg hbc]
          exact h2
        · rw [if_neg hab] at h1
          rw [← hbc, if_neg hab]
          exact h1
        · rw [if_neg hab] at h1
          rw [if_neg hbc] at h2
          have hac : a ≠ c := by
            intro h
            subst h
            exact hasym a b h1 h2
          rw [if_neg hac]
          exact htr a b c h1 h2

theorem lexLt_asymm {α : Type} [DecidableEq α] (lt : α → α → Bool)
    (hasym : ∀ a b, lt a b = true → lt b a = true → False) :
    ∀ as bs, lexLt lt as bs = true → lexLt lt bs as = true → False := by
  intro as
  induction as with
  | nil =>
    intro bs h1 h2
    cases bs with
    | nil => simp [lexLt] at h1
    | cons b bs => simp [lexLt] at h2
  | cons a as ih =>
    intro bs h1 h2
    cases bs with
    | nil => simp [lexLt] at h1
    | cons b bs =>
      simp only [lexLt] at h1 h2
      by_cases hab : a = b
      · subst hab
        rw [if_pos rfl] at h1 h2
        exact ih bs h1 h2
      · rw [if_neg hab] at h1
        rw [if_neg (Ne.symm hab)] at h2
        exact hasym a b h1 h2

theorem lexLt_connex {α : Type} [DecidableEq α] (lt : α → α → Bool)
    (hconn : ∀ a b, a ≠ b → lt a b = true ∨ lt b a = true) :
    ∀ as bs, as ≠ bs → lexLt lt as bs = true ∨ lexLt lt bs as = true := by
  intro as
  induction as with
  | nil =>
    intro bs hne
    cases bs with
    | nil => exact absurd rfl hne
    | cons b bs => left; rfl
  | cons a as ih =>
    intro bs hne
    cases bs with
    | nil => right; rfl
    | cons b bs =>
      simp only [lexLt]
      by_cases hab : a = b
      · subst hab
        rw [if_pos rfl, if_pos rfl]
        exact ih bs (by intro h; exact hne (by rw [h]))
      · rw [if_neg hab, if_neg (Ne.symm hab)]
        exact hconn a b hab

theorem lexLe_iff {α : Type} [DecidableEq α] (lt : α → α → Bool) :
    ∀ as bs, lexLe lt as bs = true ↔ (lexLt lt as bs = true ∨ as = bs) := by
  intro as
  induction as with
  | nil =>
    intro bs
    cases bs with
    | nil => simp [lexLe, lexLt]
    | cons b bs => simp [lexLe, lexLt]
  | cons a as ih =>
    intro bs
    cases bs with
    | nil => simp [lexLe, lexLt]
    | cons b bs =>
      simp only [lexLe, lexLt]
      by_cases hab : a = b
      · subst hab
        rw [if_pos rfl, if_pos rfl]
        simpa using ih bs
      · rw [if_neg hab, if_neg hab]
        simp [hab]

theorem lexLe_total {α : Type} [DecidableEq α] (lt : α → α → Bool)
    (hconn : ∀ a b, a ≠ b → lt a b = true ∨ lt b a = true) :
    ∀ as bs, lexLe lt as bs = true ∨ lexLe lt bs as = true := by
  intro as bs
  by_cases h : as = bs
  · left; rw [lexLe_iff]; right; exact h
  · rcases lexLt_connex lt hconn as bs h with h' | h'
    · left; rw [lexLe_iff]; left; exact h'
    · right; rw [lexLe_iff]; left; exact h'

theorem lexLe_trans {α : Type} [DecidableEq α] (lt : α → α → Bool)
    (htr : ∀ a b c, lt a b = true → lt b c = true → lt a c = true)
    (hasym : ∀ a b, lt a b = true → lt b a = true → False) :
    ∀ as bs cs, lexLe lt as bs = true → lexLe lt bs cs = true → lexLe lt as cs = true := by
  intro as bs cs h1 h2
  rw [lexLe_iff] at h1 h2 ⊢
  rcases h1 with h1 | h1
  · rcases h2 with h2 | h2
    · left; exact lexLt_trans lt htr hasym as bs cs h1 h2
    · subst h2; left; exact h1
  · subst h1; exact h2

theorem charLt_trans (a b c : Char) (h1 : charLt a b = true) (h2 : charLt b c = true) :
    charLt a c = true := by
  simp only [charLt, decide_eq_true_eq] at h1 h2 ⊢
  exact lt_trans h1 h2

theorem charLt_asymm (a b : Char) (h1 : charLt a b = true) (h2 : charLt b a = true) : False := by
  simp only [charLt, decide_eq_true_eq] at h1 h2
  exact absurd h2 (lt_asymm h1)

theorem charLt_connex (a b : Char) (h : a ≠ b) : charLt a b = true ∨ charLt b a = true := by
  simp only [charLt, decide_eq_true_eq]
  rcases lt_or_gt_of_ne h with h' | h'
  · left; exact h'
  · right; exact h'

theorem toList_injective (a b : String) (h : a.toList = b.toList) : a = b := by
  cases a
  cases b
  simp only [String.toList] at h
  rw [h]

@[instance] theorem strLeR_isTotal : IsTotal String strLeR :=
  ⟨fun a b => lexLe_total charLt charLt_connex a.toList b.toList⟩

@[instance] theorem strLeR_isTrans : IsTrans String strLeR :=
  ⟨fun a b c => lexLe_trans charLt charLt_trans charLt_asymm a.toList b.toList c.toList⟩

@[instance] theorem keyLeR_isTotal : IsTotal ConfigKey keyLeR :=
  ⟨fun a b =>
    lexLe_total (lexLt charLt) (fun x y => lexLt_connex charLt charLt_connex x y)
      (keyFields a) (keyFields b)⟩

@[instance] theorem keyLeR_isTrans : IsTrans ConfigKey keyLeR :=
  ⟨fun a b c =>
    lexLe_trans (lexLt charLt)
      (fun x y z => lexLt_trans charLt charLt_trans charLt_asymm x y z)
      (fun x y => lexLt_asymm charLt charLt_asymm x y)
      (keyFields a) (keyFields b) (keyFields c)⟩

/-! ### Resolution lemmas -/

theorem configGet_eq (cg : ConfigGetter) (env : Env) (key : String) (default : Value)
    (doc : String) :
    configGet cg env key default doc =
      (configRead cg env (keyEnvName cg key) (keyConfigSection key) (splitKey key).2 default,
       { cg with seen_keys := addSeen cg.seen_keys (seenRecord cg key doc) }) := rfl

theorem configRead_env (cg : ConfigGetter) (env : Env) (envK sec key : String) (default : Value)
    (v : String) (h : envLookup env envK = some v) :
    configRead cg env envK sec key default = .str v := by
  simp [configRead, h]

theorem configRead_store (cg : ConfigGetter) (env : Env) (envK sec key : String) (default : Value)
    (v : String) (henv : envLookup env envK = Option.none)
    (h : storeGet cg.store sec key = some v) :
    configRead cg env envK sec key default = .str v := by
  simp [configRead, henv, h]

theorem configRead_defaults (cg : ConfigGetter) (env : Env) (envK sec key : String)
    (default : Value) (v : Value) (henv : envLookup env envK = Option.none)
    (hstore : storeGet cg.store sec key = Option.none)
    (h : defaultsGet cg.defaults sec key = some v) :
    configRead cg env envK sec key default = v := by
  simp [configRead, henv, hstore, h]

theorem configRead_absent (cg : ConfigGetter) (env : Env) (envK sec key : String)
    (default : Value) (henv : envLookup env envK = Option.none)
    (hstore : storeGet cg.store sec key = Option.none)
    (hdef : defaultsGet cg.defaults sec key = Option.none) :
    configRead cg env envK sec key default = default := by
  simp [configRead, henv, hstore, hdef]

theorem storeGet_append (l₁ l₂ : List (String × String × String)) (sec key : String) :
    storeGet (l₁ ++ l₂) sec key =
      match storeGet l₂ sec key with
      | some v => some v
      | Option.none => storeGet l₁ sec key := by
  unfold storeGet
  rw [List.reverse_append, List.find?_append]
  cases h : l₂.reverse.find? (fun a => a.1 == sec && a.2.1 == key) with
  | none => simp [Option.orElse, h]
  | some a => simp [Option.orElse, h]

theorem mem_addSeen_self (l : List ConfigKey) (k : ConfigKey) : k ∈ addSeen l k := by
  unfold addSeen
  by_cases h : k ∈ l
  · rw [if_pos h]; exact h
  · rw [if_neg h]; simp

theorem mem_addSeen_of_mem (l : List ConfigKey) (k a : ConfigKey) (h : a ∈ l) :
    a ∈ addSeen l k := by
  unfold addSeen
  by_cases hk : k ∈ l
  · rw [if_pos hk]; exact h
  · rw [if_neg hk]; exact List.mem_append_left _ h

theorem mem_addSeen_iff (l : List ConfigKey) (k a : ConfigKey) :
    a ∈ addSeen l k ↔ (a ∈ l ∨ a = k) := by
  unfold addSeen
  by_cases hk : k ∈ l
  · rw [if_pos hk]
    constructor
    · intro h; left; exact h
    · intro h
      rcases h with h | h
      · exact h
      · rw [h]; exact hk
  · rw [if_neg hk]; simp

theorem addSeen_of_mem (l : List ConfigKey) (k : ConfigKey) (h : k ∈ l) : addSeen l k = l := by
  unfold addSeen
  rw [if_pos h]

theorem nodup_addSeen (l : List ConfigKey) (k : ConfigKey) (h : l.Nodup) :
    (addSeen l k).Nodup := by
  unfold addSeen
  by_cases hk : k ∈ l
  · rw [if_pos hk]; exact h
  · rw [if_neg hk]
    simp [List.nodup_append, h, hk]

theorem finalConfigFiles_eq (fsys : FileSystem) (search : List String) :
    finalConfigFiles fsys search =
      search.flatMap (fun p => List.insertionSort strLeR (fsys.globMatches p)) := by
  have key : ∀ (l : List String) (acc : List String),
      l.foldl
        (fun acc p =>
          let df := fsys.globMatches p
          if df.isEmpty then acc else acc ++ List.insertionSort strLeR df)
        acc =
      acc ++ l.flatMap (fun p => List.insertionSort strLeR (fsys.globMatches p)) := by
    intro l
    induction l with
    | nil => intro acc; simp
    | cons p rest ih =>
      intro acc
      simp only [List.foldl_cons, List.flatMap_cons]
      by_cases h : (fsys.globMatches p).isEmpty
      · have hnil : fsys.globMatches p = [] := List.isEmpty_iff.mp h
        simp only [h, if_pos]
        rw [ih acc, hnil]
        simp [List.insertionSort]
      · simp only [h, if_neg, Bool.false_eq_true, not_false_iff]
        rw [ih (acc ++ List.insertionSort strLeR (fsys.globMatches p)), List.append_assoc]
  exact key search []

/-! ### C1 -/

/-- C1, counterexample: the claim says a dotless key `k`, absent from the
environment and the parsed store, looks up `defaults[""]["k"]` (value
`"bare"` here) and never `defaults["DEFAULT"]["k"]` (value `"sub"`); the code
returns `"sub"`. -/
theorem C1_counterexample :
    (configGet cgC1 [] "k" (Value.str "fallback") "").1 = Value.str "sub" ∧
    (configGet cgC1 [] "k" (Value.str "fallback") "").1 ≠ Value.str "bare" := by
  constructor
  · decide
  · decide

/-- C1 (amended): for a lookup key whose value is absent from the environment
and the parsed store, the default-table lookup uses the same
`DEFAULT`-substituted section as the parser lookup — for a dotless key `K`,
`defaults["DEFAULT"][K]`, never `defaults[""][K]` (the bare empty-string
section row is ignored, as the universal quantification over `cg.defaults`
shows). -/
theorem C1_amended (cg : ConfigGetter) (env : Env) (key : String) (default : Value)
    (doc : String) (hdot : (splitKey key).1 = "")
    (henv : envLookup env (keyEnvName cg key) = Option.none)
    (hstore : storeGet cg.store "DEFAULT" (splitKey key).2 = Option.none) :
    (configGet cg env key default doc).1 =
      (defaultsGet cg.defaults "DEFAULT" (splitKey key).2).getD default := by
  have hcs : keyConfigSection key = "DEFAULT" := by
    unfold keyConfigSection
    rw [hdot]
    rfl
  rw [configGet_eq]
  dsimp only
  rw [hcs]
  cases hd : defaultsGet cg.defaults "DEFAULT" (splitKey key).2 with
  | none =>
    rw [configRead_absent _ _ _ _ _ _ henv hstore hd]
    rfl
  | some v =>
    rw [configRead_defaults _ _ _ _ _ _ _ henv hstore hd]
    rfl

/-- C1 witness: on `cgC1`, the amended claim yields the `"DEFAULT"`-row value
`"sub"`. -/
theorem C1_amended_witness :
    (configGet cgC1 [] "k" (Value.str "fallback") "").1 = Value.str "sub" := by
  have h := C1_amended cgC1 [] "k" (Value.str "fallback") "" (by decide) (by decide) (by decide)
  rw [h]
  decide

/-! ### C2 -/

/-- C2: when the mapped environment variable is set — even to the empty
string — `getstr` returns the environment value verbatim as text, whatever
the parsed store and the defaults table contain for the same key. -/
theorem C2_env_wins (cg : ConfigGetter) (env : Env) (key : String) (default : Value)
    (doc : String) (s : String) (hok : strDefaultOk default = true)
    (henv : envLookup env (keyEnvName cg key) = some s) :
    (getstrE cg env key default doc).1 = .ok (Value.str s) := by
  unfold getstrE
  rw [if_pos hok]
  rw [configGet_eq]
  dsimp only
  rw [configRead_env _ _ _ _ _ _ _ henv]

/-- C2 witness: `APP_K` set to the empty string wins over the file value
`"filev"` and the defaults value `"defv"`. -/
theorem C2_env_wins_witness :
    (getstrE cgC2 [("APP_K", "")] "k" (Value.str "fallback") "").1 = .ok (Value.str "") :=
  C2_env_wins cgC2 [("APP_K", "")] "k" (Value.str "fallback") "" "" (by decide) (by decide)

/-! ### C3 -/

/-- C3, counterexample: with `APP_CONFIG` set to the empty string the claim
says no candidate is added (only a set **and non-empty** value adds one), so
the candidate list should be empty; the code only skips the unset (`None`)
case, so the empty value is normalised to the working directory and
`/cwd/*` is appended as a candidate. -/
theorem C3_counterexample :
    buildSearchFiles fsC3 [("APP_CONFIG", "")] "app" [] = ["/cwd/*"] ∧
    buildSearchFiles fsC3 [("APP_CONFIG", "")] "app" [] ≠ [] := by
  constructor
  · decide
  · decide

/-- C3 (amended): `{NAMESPACE}_CONFIG` is consulted at construction; whenever
it is set — even to the empty string — its normalised value is appended as
the last candidate (an unset variable adds none), and a (section, key) entry
contributed by the files that last candidate matches takes precedence over
the store entries of every explicitly listed candidate. -/
theorem C3_amended (fsys : FileSystem) (env : Env) (ns : String) (config_files : List String)
    (defaults : List (String × List (String × Value))) (v : String) (sec key val : String) :
    (envLookup env (envKeyOf ns "config" "") = some v →
      buildSearchFiles fsys env ns config_files =
        config_files.map (normalizePath fsys) ++ [normalizePath fsys v]) ∧
    (envLookup env (envKeyOf ns "config" "") = Option.none →
      buildSearchFiles fsys env ns config_files = config_files.map (normalizePath fsys)) ∧
    (envLookup env (envKeyOf ns "config" "") = some v →
      storeGet ((List.insertionSort strLeR (fsys.globMatches (normalizePath fsys v))).flatMap
          fsys.fileAssigns) sec key = some val →
      storeGet (ConfigGetter.init fsys env ns config_files defaults).store sec key = some val) := by
  refine ⟨?_, ?_, ?_⟩
  · intro hset
    unfold buildSearchFiles
    rw [hset]
    simp
  · intro hset
    unfold buildSearchFiles
    rw [hset]
    simp
  · intro hset hval
    show storeGet ((finalConfigFiles fsys (buildSearchFiles fsys env ns config_files)).flatMap
      fsys.fileAssigns) sec key = some val
    unfold buildSearchFiles
    rw [hset]
    rw [List.map_append, finalConfigFiles_eq, List.flatMap_append, List.flatMap_append]
    rw [storeGet_append]
    simp only [List.map_cons, List.map_nil, List.flatMap_cons, List.flatMap_nil,
      List.append_nil] at *
    rw [hval]

/-- C3 witness: with `APP_CONFIG=/extra.ini`, the extra file is the last
candidate and its value for `(s, k)` wins over the listed file's. -/
theorem C3_amended_witness :
    buildSearchFiles fsC3w [("APP_CONFIG", "/extra.ini")] "app" ["/listed.ini"] =
      ["/listed.ini", "/extra.ini"] ∧
    storeGet (ConfigGetter.init fsC3w [("APP_CONFIG", "/extra.ini")] "app" ["/listed.ini"]
        []).store "s" "k" = some "high" := by
  have h := C3_amended fsC3w [("APP_CONFIG", "/extra.ini")] "app" ["/listed.ini"] []
    "/extra.ini" "s" "k" "high"
  constructor
  · rw [h.1 (by decide)]
    decide
  · exact h.2.2 (by decide) (by decide)

/-! ### C4 -/

theorem storeGet_flatMap_none (assigns : String → List (String × String × String))
    (l : List String) (sec key : String)
    (h : ∀ g ∈ l, storeGet (assigns g) sec key = Option.none) :
    storeGet (l.flatMap assigns) sec key = Option.none := by
  induction l with
  | nil => rfl
  | cons g rest ih =>
    rw [List.flatMap_cons, storeGet_append]
    rw [ih (fun x hx => h x (List.mem_cons_of_mem g hx))]
    exact h g (List.mem_cons_self g rest)

/-- C4: the discovered-file list is the concatenation, in candidate order, of
each candidate's glob expansion sorted lexicographically ascending; a
candidate matching nothing contributes nothing (construction is total, so no
error arises); and when the file list splits as `gl₁ ++ f :: gl₂` with `f`
defining `(sec, key)` and no later file redefining it, the store answers with
`f`'s value — the later a file, the higher its precedence. -/
theorem C4_discovery_and_overlay (fsys : FileSystem) (env : Env) (ns : String)
    (config_files : List String)
    (defaults : List (String × List (String × Value))) (search l₁ l₂ : List String)
    (p f : String) (gl₁ gl₂ : List String) (sec key v : String) :
    (finalConfigFiles fsys search =
      search.flatMap (fun q => List.insertionSort strLeR (fsys.globMatches q))) ∧
    (List.Sorted strLeR (List.insertionSort strLeR (fsys.globMatches p)) ∧
      (List.insertionSort strLeR (fsys.globMatches p)).Perm (fsys.globMatches p)) ∧
    (fsys.globMatches p = [] →
      finalConfigFiles fsys (l₁ ++ p :: l₂) = finalConfigFiles fsys (l₁ ++ l₂)) ∧
    ((ConfigGetter.init fsys env ns config_files defaults).found_files = gl₁ ++ f :: gl₂ →
      storeGet (fsys.fileAssigns f) sec key = some v →
      (∀ g ∈ gl₂, storeGet (fsys.fileAssigns g) sec key = Option.none) →
      storeGet (ConfigGetter.init fsys env ns config_files defaults).store sec key = some v) := by
  refine ⟨finalConfigFiles_eq fsys search, ⟨?_, List.perm_insertionSort strLeR _⟩, ?_, ?_⟩
  · exact List.sorted_insertionSort strLeR (fsys.globMatches p)
  · intro hempty
    rw [finalConfigFiles_eq, finalConfigFiles_eq]
    rw [List.flatMap_append, List.flatMap_append, List.flatMap_cons, hempty]
    rfl
  · intro hsplit hf hlater
    show storeGet (((ConfigGetter.init fsys env ns config_files defaults).found_files).flatMap
      fsys.fileAssigns) sec key = some v
    rw [hsplit, List.flatMap_append, List.flatMap_cons, storeGet_append, storeGet_append]
    rw [storeGet_flatMap_none fsys.fileAssigns gl₂ sec key hlater]
    rw [hf]

/-- C4 witness: both files are discovered sorted ascending, the empty
candidate contributes nothing, and the later file `20_b` supplies the value
of `(s, k)`. -/
theorem C4_discovery_and_overlay_witness :
    finalConfigFiles fsC4 ["/conf.d/*"] =
      ["/conf.d/*"].flatMap (fun q => List.insertionSort strLeR (fsC4.globMatches q)) ∧
    finalConfigFiles fsC4 ["/none", "/conf.d/*"] = finalConfigFiles fsC4 ["/conf.d/*"] ∧
    storeGet (ConfigGetter.init fsC4 [] "app" ["/none", "/conf.d/*"] []).store "s" "k" =
      some "v20" := by
  have h := C4_discovery_and_overlay fsC4 [] "app" ["/none", "/conf.d/*"] [] ["/conf.d/*"]
    [] ["/conf.d/*"] "/none" "/conf.d/20_b" ["/conf.d/10_a"] [] "s" "k" "v20"
  refine ⟨h.1, ?_, ?_⟩
  · have := h.2.2.1 (by decide)
    simpa using this
  · exact h.2.2.2 (by decide) (by decide) (by decide)

/-! ### C5 -/

/-- C5, counterexample: the claim says a sequence default passed to `getlist`
comes back unchanged when the key is absent everywhere; on the empty getter a
tuple default `('a', 'b')` comes back as the list `['a', 'b']`, which Python
compares unequal to the tuple. -/
theorem C5_counterexample :
    (getlistE cgEmpty [] "k" (Value.vtup ["a", "b"]) "" ",").1 =
      .ok (Value.vlist ["a", "b"]) ∧
    (getlistE cgEmpty [] "k" (Value.vtup ["a", "b"]) "" ",").1 ≠
      .ok (Value.vtup ["a", "b"]) := by
  constructor
  · decide
  · decide

/-- C5 (amended): for every key absent from the environment, the parsed
store, and the default table, `getstr`, `getbool`, `getint` and `getfloat`
return the caller-supplied default unchanged (including `None`), and
`getlist` returns `None` for a `None` default but passes a sequence default
through `list(...)`: a list default comes back as the same list, a tuple
default as the list of its elements in order. -/
theorem C5_absent_default (cg : ConfigGetter) (env : Env) (key : String) (doc : String)
    (henv : envLookup env (keyEnvName cg key) = Option.none)
    (hstore : storeGet cg.store (keyConfigSection key) (splitKey key).2 = Option.none)
    (hdef : defaultsGet cg.defaults (keyConfigSection key) (splitKey key).2 = Option.none) :
    (∀ d, strDefaultOk d = true → (getstrE cg env key d doc).1 = .ok d) ∧
    ((getboolE cg env key Value.none doc).1 = .ok Value.none) ∧
    (∀ b, (getboolE cg env key (Value.vbool b) doc).1 = .ok (Value.vbool b)) ∧
    ((getintE cg env key Value.none doc).1 = .ok Value.none) ∧
    (∀ n, (getintE cg env key (Value.vint n) doc).1 = .ok (Value.vint n)) ∧
    ((getfloatE cg env key Value.none doc).1 = .ok Option.none) ∧
    ((getlistE cg env key Value.none doc ",").1 = .ok Value.none) ∧
    (∀ xs, (getlistE cg env key (Value.vlist xs) doc ",").1 = .ok (Value.vlist xs)) ∧
    (∀ xs, (getlistE cg env key (Value.vtup xs) doc ",").1 = .ok (Value.vlist xs)) := by
  have habs : ∀ d, (configGet cg env key d doc).1 = d := by
    intro d
    rw [configGet_eq]
    exact configRead_absent _ _ _ _ _ _ henv hstore hdef
  refine ⟨?_, ?_, ?_, ?_, ?_, ?_, ?_, ?_, ?_⟩
  · intro d hok
    unfold getstrE
    rw [if_pos hok]
    dsimp only
    rw [habs d]
  · unfold getboolE
    rw [if_pos (by decide)]
    dsimp only
    rw [habs Value.none]
  · intro b
    unfold getboolE
    have hc : boolDefaultOk (Value.vbool b) = true := rfl
    rw [if_pos hc]
    dsimp only
    rw [habs (Value.vbool b)]
    cases b <;> rfl
  · unfold getintE
    rw [if_pos (by decide)]
    dsimp only
    rw [habs Value.none]
  · intro n
    unfold getintE
    have hc : intDefaultOk (Value.vint n) = true := rfl
    rw [if_pos hc]
    dsimp only
    rw [habs (Value.vint n)]
    rfl
  · unfold getfloatE
    rw [if_pos (by decide)]
    dsimp only
    rw [habs Value.none]
  · unfold getlistE
    rw [if_pos (by decide)]
    dsimp only
    rw [habs Value.none]
  · intro xs
    unfold getlistE
    have hc : listDefaultOk (Value.vlist xs) = true := rfl
    rw [if_pos hc]
    dsimp only
    rw [habs (Value.vlist xs)]
  · intro xs
    unfold getlistE
    have hc : listDefaultOk (Value.vtup xs) = true := rfl
    rw [if_pos hc]
    dsimp only
    rw [habs (Value.vtup xs)]

/-- C5 witness: on the empty getter, a string default comes back unchanged, a
`None` default comes back as `None`, and a tuple default comes back as a
list. -/
theorem C5_absent_default_witness :
    (getstrE cgEmpty [] "k" (Value.str "d") "").1 = .ok (Value.str "d") ∧
    (getintE cgEmpty [] "k" (Value.vint 7) "").1 = .ok (Value.vint 7) ∧
    (getlistE cgEmpty [] "k" (Value.vtup ["a"]) "" ",").1 = .ok (Value.vlist ["a"]) := by
  have h := C5_absent_default cgEmpty [] "k" "" (by decide) (by decide) (by decide)
  exact ⟨h.1 (Value.str "d") (by decide), h.2.2.2.2.1 7, h.2.2.2.2.2.2.2.2 ["a"]⟩

/-! ### C6 -/

/-- C6, counterexample: the claim says a resolved value that is already a
sequence is returned unchanged; a tuple `('a',)` resolved from the defaults
table comes back from `getlist` as the list `['a']`, which Python compares
unequal to the tuple. -/
theorem C6_counterexample :
    (getlistE cgC6 [] "k" Value.none "" ",").1 = .ok (Value.vlist ["a"]) ∧
    (getlistE cgC6 [] "k" Value.none "" ",").1 ≠ .ok (Value.vtup ["a"]) := by
  constructor
  · decide
  · decide

/-- C6 (amended): for every resolved raw text value, `getlist` splits it on
the separator, strips whitespace from each piece, drops empty pieces and
returns the remaining pieces in order — on `" a, b ,,c "` it returns
`["a", "b", "c"]` — while a resolved value that is already a sequence is
passed through `list(...)` (a list comes back as the same list, a tuple as
the list of its elements in order) and a `None` resolved value yields
`None`. -/
theorem C6_getlist_coercion (cg : ConfigGetter) (env : Env) (key : String) (d : Value)
    (doc : String) (sep : String) (hok : listDefaultOk d = true) (hsep : sep ≠ "") :
    (∀ s, (configGet cg env key d doc).1 = Value.str s →
      (getlistE cg env key d doc sep).1 = .ok (Value.vlist (splitPieces s sep))) ∧
    (splitPieces " a, b ,,c " "," = ["a", "b", "c"]) ∧
    (∀ xs, (configGet cg env key d doc).1 = Value.vlist xs →
      (getlistE cg env key d doc sep).1 = .ok (Value.vlist xs)) ∧
    (∀ xs, (configGet cg env key d doc).1 = Value.vtup xs →
      (getlistE cg env key d doc sep).1 = .ok (Value.vlist xs)) ∧
    ((configGet cg env key d doc).1 = Value.none →
      (getlistE cg env key d doc sep).1 = .ok Value.none) := by
  refine ⟨?_, by decide, ?_, ?_, ?_⟩
  · intro s hv
    unfold getlistE
    rw [if_pos hok]
    dsimp only
    rw [hv]
    dsimp only
    rw [if_neg hsep]
  · intro xs hv
    unfold getlistE
    rw [if_pos hok]
    dsimp only
    rw [hv]
  · intro xs hv
    unfold getlistE
    rw [if_pos hok]
    dsimp only
    rw [hv]
  · intro hv
    unfold getlistE
    rw [if_pos hok]
    dsimp only
    rw [hv]

/-- C6 witness: the environment resolves `k` to `" a, b ,,c "` and `getlist`
returns `["a", "b", "c"]`; on `cgC6` the resolved tuple `('a',)` comes back
as the list `['a']`. -/
theorem C6_getlist_coercion_witness :
    (getlistE cgEmpty [("APP_K", " a, b ,,c ")] "k" Value.none "" ",").1 =
      .ok (Value.vlist ["a", "b", "c"]) ∧
    (getlistE cgC6 [] "k" Value.none "" ",").1 = .ok (Value.vlist ["a"]) := by
  constructor
  · have h := C6_getlist_coercion cgEmpty [("APP_K", " a, b ,,c ")] "k" Value.none ""
      "," (by decide) (by decide)
    have h2 := h.1 " a, b ,,c " (by decide)
    rw [h2]
    decide
  · have h := C6_getlist_coercion cgC6 [] "k" Value.none "" "," (by decide) (by decide)
    exact h.2.2.2.1 ["a"] (by decide)

/-! ### C7 -/

/-- C7: for every non-`None` resolved value, `getbool` returns `True` exactly
when the lower-cased text form of the value is one of `"on"`, `"true"`,
`"yes"`, `"1"` — in particular `"on"`, `"TRUE"`, `"Yes"`, `"1"` map to `True`
and `"off"`, `"2"`, `""` to `False` — and a `None` resolved value yields
`None`. -/
theorem C7_getbool (cg : ConfigGetter) (env : Env) (key : String) (d : Value) (doc : String)
    (hok : boolDefaultOk d = true) :
    (∀ v, (configGet cg env key d doc).1 = v → v ≠ Value.none →
      (getboolE cg env key d doc).1 =
        .ok (Value.vbool (decide (pyLower (pyStr v) ∈ truthyStrings)))) ∧
    ((configGet cg env key d doc).1 = Value.none →
      (getboolE cg env key d doc).1 = .ok Value.none) ∧
    (pyLower "on" ∈ truthyStrings ∧ pyLower "TRUE" ∈ truthyStrings ∧
      pyLower "Yes" ∈ truthyStrings ∧ pyLower "1" ∈ truthyStrings) ∧
    (pyLower "off" ∉ truthyStrings ∧ pyLower "2" ∉ truthyStrings ∧
      pyLower "" ∉ truthyStrings) := by
  refine ⟨?_, ?_, by decide, by decide⟩
  · intro v hv hne
    unfold getboolE
    rw [if_pos hok]
    dsimp only
    rw [hv]
    cases v with
    | none => exact absurd rfl hne
    | str s => rfl
    | vlist xs => rfl
    | vtup xs => rfl
    | vbool b => rfl
    | vint n => rfl
  · intro hv
    unfold getboolE
    rw [if_pos hok]
    dsimp only
    rw [hv]

/-- C7 witness: `"TRUE"` from the environment resolves to `True`, `"off"` to
`False`, and a `None` default resolves to `None`. -/
theorem C7_getbool_witness :
    (getboolE cgEmpty [("APP_K", "TRUE")] "k" Value.none "").1 =
      .ok (Value.vbool true) ∧
    (getboolE cgEmpty [("APP_K", "off")] "k" Value.none "").1 =
      .ok (Value.vbool false) ∧
    (getboolE cgEmpty [] "k" Value.none "").1 = .ok Value.none := by
  refine ⟨?_, ?_, ?_⟩
  · have h := (C7_getbool cgEmpty [("APP_K", "TRUE")] "k" Value.none "" (by decide)).1
      (Value.str "TRUE") (by decide) (by decide)
    rw [h]
    decide
  · have h := (C7_getbool cgEmpty [("APP_K", "off")] "k" Value.none "" (by decide)).1
      (Value.str "off") (by decide) (by decide)
    rw [h]
    decide
  · exact (C7_getbool cgEmpty [] "k" Value.none "" (by decide)).2.1 (by decide)

/-! ### C8 -/

/-- C8: every lookup adds exactly the one computed SeenKey record to the
seen-keys set (whatever source answers — the updated state does not depend on
which chain step succeeded), existing records are never removed, a duplicate
add leaves the set unchanged, duplicate-freeness is preserved, `list_keys`
returns a sorted snapshot with exactly the members of the set, and resolving
`"a.b"`, then `"a.b"` again, then `"c"` yields exactly two records. -/
theorem C8_seen_keys (cg : ConfigGetter) (env : Env) (key : String) (d : Value) (doc : String) :
    ((configGet cg env key d doc).2.seen_keys =
      addSeen cg.seen_keys (seenRecord cg key doc)) ∧
    (∀ r ∈ cg.seen_keys, r ∈ (configGet cg env key d doc).2.seen_keys) ∧
    (∀ r, r ∈ (configGet cg env key d doc).2.seen_keys ↔
      (r ∈ cg.seen_keys ∨ r = seenRecord cg key doc)) ∧
    (seenRecord cg key doc ∈ cg.seen_keys →
      (configGet cg env key d doc).2.seen_keys = cg.seen_keys) ∧
    (cg.seen_keys.Nodup → (configGet cg env key d doc).2.seen_keys.Nodup) ∧
    (List.Sorted keyLeR (list_keys cg) ∧ (∀ r, r ∈ list_keys cg ↔ r ∈ cg.seen_keys)) ∧
    ((configGet (configGet (configGet cgEmpty [] "a.b" (Value.str "") "").2 []
        "a.b" (Value.str "") "").2 [] "c" (Value.str "") "").2.seen_keys.length = 2) := by
  refine ⟨rfl, ?_, ?_, ?_, ?_, ⟨?_, ?_⟩, by decide⟩
  · intro r hr
    rw [configGet_eq]
    exact mem_addSeen_of_mem _ _ _ hr
  · intro r
    rw [configGet_eq]
    exact mem_addSeen_iff _ _ _
  · intro hmem
    rw [configGet_eq]
    exact addSeen_of_mem _ _ hmem
  · intro hnd
    rw [configGet_eq]
    exact nodup_addSeen _ _ hnd
  · exact List.sorted_insertionSort keyLeR cg.seen_keys
  · intro r
    exact (List.perm_insertionSort keyLeR cg.seen_keys).mem_iff

/-- C8 witness: concrete growth, de-duplication and sorted snapshot on
`cgC8`. -/
theorem C8_seen_keys_witness :
    ({ sectionName := "b", entry := "x", envvar := "APP_B_X", doc := "" } : ConfigKey) ∈
      (configGet cgC8 [] "a.y" (Value.str "") "").2.seen_keys ∧
    (configGet cgC8 [] "a.y" (Value.str "") "").2.seen_keys = cgC8.seen_keys ∧
    (configGet cgC8 [] "a.y" (Value.str "") "").2.seen_keys.Nodup ∧
    list_keys cgC8 =
      [{ sectionName := "a", entry := "y", envvar := "APP_A_Y", doc := "" },
       { sectionName := "b", entry := "x", envvar := "APP_B_X", doc := "" }] := by
  have h := C8_seen_keys cgC8 [] "a.y" (Value.str "") ""
  refine ⟨?_, ?_, ?_, ?_⟩
  · exact h.2.1 _ (by decide)
  · exact h.2.2.2.1 (by decide)
  · exact h.2.2.2.2.1 (by decide)
  · decide

/-! ### C9 -/

/-- C9: every typed accessor validates its default before any lookup: with a
wrong-typed default it returns the assertion error and the completely
unchanged getter state (so no SeenKey is recorded), and — since the equation
holds for every environment, store and defaults table — no source is
consulted. -/
theorem C9_invalid_default (cg : ConfigGetter) (env : Env) (key : String) (doc : String)
    (d : Value) (sep : String) :
    (strDefaultOk d = false → getstrE cg env key d doc = (.error .assertErr, cg)) ∧
    (listDefaultOk d = false → getlistE cg env key d doc sep = (.error .assertErr, cg)) ∧
    (boolDefaultOk d = false → getboolE cg env key d doc = (.error .assertErr, cg)) ∧
    (intDefaultOk d = false → getintE cg env key d doc = (.error .assertErr, cg)) ∧
    (floatDefaultOk d = false → getfloatE cg env key d doc = (.error .assertErr, cg)) := by
  refine ⟨?_, ?_, ?_, ?_, ?_⟩
  · intro h
    unfold getstrE
    rw [h]
    rfl
  · intro h
    unfold getlistE
    rw [h]
    rfl
  · intro h
    unfold getboolE
    rw [h]
    rfl
  · intro h
    unfold getintE
    rw [h]
    rfl
  · intro h
    unfold getfloatE
    rw [h]
    rfl

/-- C9 witness: wrong-typed defaults on a getter whose sources all contain
`k`; every accessor fails the assert and leaves the state unchanged. -/
theorem C9_invalid_default_witness :
    getstrE cgC2 [("APP_K", "x")] "k" (Value.vint 3) "" = (.error .assertErr, cgC2) ∧
    getlistE cgC2 [("APP_K", "x")] "k" (Value.vbool true) "" "," =
      (.error .assertErr, cgC2) ∧
    getboolE cgC2 [("APP_K", "x")] "k" (Value.str "yes") "" = (.error .assertErr, cgC2) ∧
    getintE cgC2 [("APP_K", "x")] "k" (Value.str "3") "" = (.error .assertErr, cgC2) ∧
    getfloatE cgC2 [("APP_K", "x")] "k" (Value.vint 3) "" = (.error .assertErr, cgC2) := by
  have h := C9_invalid_default cgC2 [("APP_K", "x")] "k" "" (Value.vint 3) ","
  have h2 := C9_invalid_default cgC2 [("APP_K", "x")] "k" "" (Value.vbool true) ","
  have h3 := C9_invalid_default cgC2 [("APP_K", "x")] "k" "" (Value.str "yes") ","
  have h4 := C9_invalid_default cgC2 [("APP_K", "x")] "k" "" (Value.str "3") ","
  exact ⟨h.1 (by decide), h2.2.1 (by decide), h3.2.2.1 (by decide), h4.2.2.2.1 (by decide),
    h.2.2.2.2 (by decide)⟩

/-! ### C10 -/

/-- C10: when `getint` (or `getfloat`) is called on a key whose resolved raw
value is malformed numeric text, the call fails with `ValueError` only after
the lookup has completed: the returned state is exactly the post-lookup
state, whose seen-keys set already contains the record for the key. -/
theorem C10_coercion_after_lookup (cg : ConfigGetter) (env : Env) (key : String)
    (doc : String) (s : String) :
    (∀ d, intDefaultOk d = true → (configGet cg env key d doc).1 = Value.str s →
      pyIntStr s = Option.none →
      (getintE cg env key d doc = (.error .valueErr, (configGet cg env key d doc).2) ∧
        seenRecord cg key doc ∈ (getintE cg env key d doc).2.seen_keys)) ∧
    (∀ d, floatDefaultOk d = true → (configGet cg env key d doc).1 = Value.str s →
      pyFloatOk s = false →
      (getfloatE cg env key d doc = (.error .valueErr, (configGet cg env key d doc).2) ∧
        seenRecord cg key doc ∈ (getfloatE cg env key d doc).2.seen_keys)) := by
  constructor
  · intro d hok hv hmal
    have heq : getintE cg env key d doc = (.error .valueErr, (configGet cg env key d doc).2) := by
      unfold getintE
      rw [if_pos hok]
      dsimp only
      rw [hv]
      dsimp only [pyIntOf]
      rw [hmal]
    refine ⟨heq, ?_⟩
    rw [heq]
    rw [configGet_eq]
    exact mem_addSeen_self _ _
  · intro d hok hv hmal
    have heq : getfloatE cg env key d doc =
        (.error .valueErr, (configGet cg env key d doc).2) := by
      unfold getfloatE
      rw [if_pos hok]
      dsimp only
      rw [hv]
      dsimp only [pyFloatCheck]
      rw [hmal]
      rfl
    refine ⟨heq, ?_⟩
    rw [heq]
    rw [configGet_eq]
    exact mem_addSeen_self _ _

/-- C10 witness: `APP_K=abc` is malformed for both `int` and `float`; both
accessors fail with `ValueError` yet the record for `k` is in the returned
seen-keys set. -/
theorem C10_coercion_after_lookup_witness :
    (getintE cgEmpty [("APP_K", "abc")] "k" Value.none "" =
      (.error .valueErr, (configGet cgEmpty [("APP_K", "abc")] "k" Value.none "").2) ∧
      seenRecord cgEmpty "k" "" ∈
        (getintE cgEmpty [("APP_K", "abc")] "k" Value.none "").2.seen_keys) ∧
    (getfloatE cgEmpty [("APP_K", "abc")] "k" Value.none "" =
      (.error .valueErr, (configGet cgEmpty [("APP_K", "abc")] "k" Value.none "").2) ∧
      seenRecord cgEmpty "k" "" ∈
        (getfloatE cgEmpty [("APP_K", "abc")] "k" Value.none "").2.seen_keys) := by
  have h := C10_coercion_after_lookup cgEmpty [("APP_K", "abc")] "k" "" "abc"
  exact ⟨h.1 Value.none (by decide) (by decide) (by decide),
    h.2 Value.none (by decide) (by decide) (by decide)⟩
